import Mathlib

/-!
# A verification model of `scripts/check.py`

`scripts/check.py` is a CI driver: it queries `rustup` for the installed
targets of the `stable` and `nightly` channels, then for each platform of a
static catalog it installs the missing targets and runs `cargo check` for
every triple, aborting at the first failing external command.  When invoked
with explicit platform arguments it restricts the run to those platforms.

The script is embedded shallowly: external commands are not executed; instead
an oracle `exec : String → Nat` gives the exit code of each command string,
and the interpreter returns the ordered trace of issued commands (what the
script prints in blue and passes to `subprocess.run`) together with the
process outcome.  The command sequence of the script depends only on the
argument list, the pre-run installed snapshot, and where the first failure
occurs, so this model is exact.
-/

namespace CheckPy

/-- The static part of the `OSS` catalog: `{ os: (channel, [triple...]) }`,
in Python dict insertion order. -/
def baseOSS : List (String × String × List String) :=
  [("android", "stable",
     ["aarch64-linux-android", "armv7-linux-androideabi", "i686-linux-android"]),
   ("freebsd", "stable", ["x86_64-unknown-freebsd"]),
   ("linux", "stable", ["x86_64-unknown-linux-gnu", "x86_64-unknown-linux-musl"]),
   ("macos", "stable", ["x86_64-apple-darwin"]),
   ("redox", "nightly", ["x86_64-unknown-redox"]),
   ("netbsd", "stable", ["x86_64-unknown-netbsd"]),
   ("windows", "stable", ["x86_64-pc-windows-gnu", "x86_64-pc-windows-msvc"])]

/-- Python dict assignment `d[k] = v` on an insertion-ordered association
list: replaces the value of an existing key in place, otherwise appends. -/
def setKey (k : String) (v : α) : List (String × α) → List (String × α)
  | [] => [(k, v)]
  | (k0, v0) :: rest =>
      if k0 = k then (k, v) :: rest else (k0, v0) :: setKey k v rest

/-- The catalog after startup: `if sys.platform == "darwin": OSS["ios"] = ...`.
It is a pure function of the host OS identifier and is never touched again. -/
def OSS (sysPlatform : String) : List (String × String × List String) :=
  if sysPlatform = "darwin" then
    setKey "ios" ("stable", ["aarch64-apple-ios", "x86_64-apple-ios"]) baseOSS
  else baseOSS

/-- `OSS.get(os)`: first-match association lookup. -/
def lookupOS : List (String × String × List String) → String →
    Option (String × List String)
  | [], _ => none
  | (k, v) :: rest, os => if k = os then some v else lookupOS rest os

/-- Does `needle` occur as a prefix of `hay` (character lists)? -/
def listHasPre : List Char → List Char → Bool
  | _, [] => true
  | [], _ :: _ => false
  | c :: cs, d :: ds => c = d && listHasPre cs ds

/-- Does `needle` occur as a contiguous substring of `hay` (character lists)? -/
def listHasSub : List Char → List Char → Bool
  | [], needle => needle.isEmpty
  | c :: t, needle => listHasPre (c :: t) needle || listHasSub t needle

/-- Python `needle in hay` on strings: contiguous substring containment. -/
def strHasSub (hay needle : String) : Bool :=
  listHasSub hay.data needle.data

/-- The external commands the script can issue, one constructor per format
string passed to `run_command`. -/
inductive Cmd where
  | cargoCheck (channel triple : String)
  | rustupInstall (channel triple : String)
  | cargoCheckNoDefault (triple : String)
  deriving DecidableEq, Repr

/-- The exact command string built by the script for each command. -/
def Cmd.str : Cmd → String
  | .cargoCheck ch t => "cargo +" ++ ch ++ " check --target=" ++ t
  | .rustupInstall ch t => "rustup +" ++ ch ++ " target install " ++ t
  | .cargoCheckNoDefault t => "cargo check --target=" ++ t ++ " --no-default-features"

def Cmd.isCheck : Cmd → Bool
  | .cargoCheck _ _ => true
  | _ => false

def Cmd.isInstall : Cmd → Bool
  | .rustupInstall _ _ => true
  | _ => false

def Cmd.isNoDefault : Cmd → Bool
  | .cargoCheckNoDefault _ => true
  | _ => false

/-- How a run of `main` ends: normal return (process exit 0), `sys.exit(1)`
from `run_command` after a failing external command, or `sys.exit(1)` after
the `Unrecognized OS` message (which carries the offending identifier and
the printed list of valid names). -/
inductive Outcome where
  | success
  | cmdFailed
  | badOS (os : String) (available : String)
  deriving DecidableEq, Repr

/-- The process exit code of each outcome. -/
def Outcome.exitCode : Outcome → Nat
  | .success => 0
  | _ => 1

abbrev Trace := List Cmd

/-- Sequencing with the `sys.exit` discipline: a non-success outcome
propagates and the continuation is never entered. -/
def seqRun (a : Trace × Outcome) (k : Unit → Trace × Outcome) : Trace × Outcome :=
  match a with
  | (tr, .success) => ((tr ++ (k ()).1 : Trace), (k ()).2)
  | (tr, o) => (tr, o)

/-- `run_command`: print the command (recorded in the trace), run it, and
`sys.exit(1)` if its return code is non-zero. -/
def runCommand (exec : String → Nat) (c : Cmd) : Trace × Outcome :=
  if exec (Cmd.str c) = 0 then ([c], .success) else ([c], .cmdFailed)

/-- `Python str(list)` rendering of the catalog keys, as printed in the
`Unrecognized OS` message. -/
def pyStrList (xs : List String) : String :=
  "[" ++ String.intercalate ", " (xs.map (fun s => "\x27" ++ s ++ "\x27")) ++ "]"

/-- The body of the per-triple loop:
`if t not in installed[channel]: run_rustup_target_install(...)` then
`run_cargo_check(channel, t)`. -/
def ensureAndCheck (exec : String → Nat) (installed : String → List String)
    (channel t : String) : Trace × Outcome :=
  seqRun
    (if (installed channel).contains t then ([], .success)
     else runCommand exec (.rustupInstall channel t))
    (fun _ => runCommand exec (.cargoCheck channel t))

/-- `for t in ts: ...` over the triples of one platform. -/
def runTriplesLoop (exec : String → Nat) (installed : String → List String)
    (channel : String) : List String → Trace × Outcome
  | [] => ([], .success)
  | t :: ts =>
      seqRun (ensureAndCheck exec installed channel t)
        (fun _ => runTriplesLoop exec installed channel ts)

/-- `for (channel, ts) in OSS.values(): ...` of the no-argument branch. -/
def runAllPlatforms (exec : String → Nat) (installed : String → List String) :
    List (String × String × List String) → Trace × Outcome
  | [] => ([], .success)
  | (_, channel, ts) :: rest =>
      seqRun (runTriplesLoop exec installed channel ts)
        (fun _ => runAllPlatforms exec installed rest)

/-- The `--no-default-features` pass over a list of triples. -/
def noDefaultPass (exec : String → Nat) : List String → Trace × Outcome
  | [] => ([], .success)
  | t :: ts =>
      seqRun (runCommand exec (.cargoCheckNoDefault t))
        (fun _ => noDefaultPass exec ts)

/-- `OSS["linux"][1]`; the key `"linux"` is always present in the catalog. -/
def linuxTriples (catalog : List (String × String × List String)) : List String :=
  match lookupOS catalog "linux" with
  | some (_, ts) => ts
  | none => []

/-- `for os in sys.argv[1:]:` — validate each name against the catalog and
run its triples; an unknown name prints the message and exits 1. -/
def runArgsLoop (exec : String → Nat) (installed : String → List String)
    (catalog : List (String × String × List String)) : List String → Trace × Outcome
  | [] => ([], .success)
  | os :: rest =>
      match lookupOS catalog os with
      | none => ([], .badOS os (pyStrList (catalog.map Prod.fst)))
      | some (channel, ts) =>
          seqRun (runTriplesLoop exec installed channel ts)
            (fun _ => runArgsLoop exec installed catalog rest)

/-- `main()`, given the host OS identifier, the command oracle, the
pre-run installed snapshot, and `sys.argv[1:]`. -/
def mainRun (sysPlatform : String) (exec : String → Nat)
    (installed : String → List String) (argv : List String) : Trace × Outcome :=
  match argv with
  | [] =>
      seqRun (runAllPlatforms exec installed (OSS sysPlatform))
        (fun _ => noDefaultPass exec (linuxTriples (OSS sysPlatform)))
  | a :: _ =>
      seqRun (runArgsLoop exec installed (OSS sysPlatform) argv)
        (fun _ =>
          if strHasSub a "linux" then
            noDefaultPass exec (linuxTriples (OSS sysPlatform))
          else ([], .success))

/-- Python `str.split()` with no argument: split on runs of whitespace,
discarding empty fields. -/
def pySplitWs (s : String) : List String :=
  (s.split Char.isWhitespace).filter (fun w => w ≠ "")

/-- The per-channel parse of `get_installed_targets`: a line contributes its
first field exactly when `len(split) == 2 and split[1] == "(installed)"`. -/
def installedFromLines (lines : List String) : List String :=
  lines.filterMap (fun line =>
    match pySplitWs line with
    | [a, b] => if b = "(installed)" then some a else none
    | _ => none)

/-- `get_installed_targets()`, given the captured stdout lines of
`rustup +{channel} target list` for each channel.  The Python dict is built
for exactly the channels `"stable"` and `"nightly"`, the only ones the
catalog mentions. -/
def getInstalledTargets (stdout : String → List String) : String → List String :=
  fun channel => installedFromLines (stdout channel)

/-! ## Basic lemmas about the interpreter -/

lemma seqRun_success {a : Trace × Outcome} (k : Unit → Trace × Outcome)
    (h : a.2 = .success) : seqRun a k = (a.1 ++ (k ()).1, (k ()).2) := by
  obtain ⟨tr, o⟩ := a
  cases o with
  | success => rfl
  | cmdFailed => simp at h
  | badOS os av => simp at h

lemma seqRun_fail {a : Trace × Outcome} (k : Unit → Trace × Outcome)
    (h : a.2 ≠ .success) : seqRun a k = a := by
  obtain ⟨tr, o⟩ := a
  cases o with
  | success => simp at h
  | cmdFailed => rfl
  | badOS os av => rfl

lemma mem_seqRun {a : Trace × Outcome} {k : Unit → Trace × Outcome} {c : Cmd}
    (h : c ∈ (seqRun a k).1) : c ∈ a.1 ∨ c ∈ (k ()).1 := by
  by_cases hs : a.2 = .success
  · rw [seqRun_success k hs] at h
    simpa using List.mem_append.mp h
  · rw [seqRun_fail k hs] at h
    exact Or.inl h

lemma runCommand_zero {exec : String → Nat} {c : Cmd}
    (h : exec (Cmd.str c) = 0) : runCommand exec c = ([c], .success) := by
  simp [runCommand, h]

/-! ## Explicit traces when every external command succeeds -/

lemma ensureAndCheck_eq {exec : String → Nat} (hexec : ∀ s, exec s = 0)
    (installed : String → List String) (channel t : String) :
    ensureAndCheck exec installed channel t =
      ((if (installed channel).contains t then [] else [.rustupInstall channel t])
        ++ [.cargoCheck channel t], .success) := by
  rw [ensureAndCheck]
  by_cases h : (installed channel).contains t = true
  · rw [if_pos h, if_pos h, seqRun_success _ rfl, runCommand_zero (hexec _)]
  · rw [if_neg h, if_neg h, runCommand_zero (hexec _), seqRun_success _ rfl,
      runCommand_zero (hexec _)]

lemma runTriplesLoop_eq {exec : String → Nat} (hexec : ∀ s, exec s = 0)
    (installed : String → List String) (channel : String) (ts : List String) :
    runTriplesLoop exec installed channel ts =
      ((ts.map (fun t =>
          (if (installed channel).contains t then [] else [.rustupInstall channel t])
            ++ [.cargoCheck channel t])).flatten, .success) := by
  induction ts with
  | nil => rfl
  | cons t ts ih =>
      rw [runTriplesLoop, ensureAndCheck_eq hexec, seqRun_success _ rfl]
      simp [ih]

lemma runAllPlatforms_eq {exec : String → Nat} (hexec : ∀ s, exec s = 0)
    (installed : String → List String)
    (catalog : List (String × String × List String)) :
    runAllPlatforms exec installed catalog =
      ((catalog.map (fun e => (runTriplesLoop exec installed e.2.1 e.2.2).1)).flatten,
        .success) := by
  induction catalog with
  | nil => rfl
  | cons e rest ih =>
      obtain ⟨os, channel, ts⟩ := e
      rw [runAllPlatforms, seqRun_success _ (by rw [runTriplesLoop_eq hexec])]
      simp [ih]

lemma noDefaultPass_eq {exec : String → Nat} (hexec : ∀ s, exec s = 0)
    (ts : List String) :
    noDefaultPass exec ts = (ts.map .cargoCheckNoDefault, .success) := by
  induction ts with
  | nil => rfl
  | cons t ts ih =>
      rw [noDefaultPass, runCommand_zero (hexec _), seqRun_success _ rfl]
      simp [ih]

lemma runArgsLoop_success {exec : String → Nat} (hexec : ∀ s, exec s = 0)
    (installed : String → List String)
    (catalog : List (String × String × List String)) (args : List String)
    (hvalid : ∀ p ∈ args, (lookupOS catalog p).isSome) :
    (runArgsLoop exec installed catalog args).2 = .success := by
  induction args with
  | nil => rfl
  | cons os rest ih =>
      have hos := hvalid os (List.mem_cons_self os rest)
      obtain ⟨⟨channel, ts⟩, hlk⟩ := Option.isSome_iff_exists.mp hos
      simp only [runArgsLoop, hlk]
      rw [seqRun_success _ (by rw [runTriplesLoop_eq hexec])]
      exact ih (fun p hp => hvalid p (List.mem_cons_of_mem os hp))

lemma runArgsLoop_append {exec : String → Nat} (hexec : ∀ s, exec s = 0)
    (installed : String → List String)
    (catalog : List (String × String × List String)) (a1 a2 : List String)
    (hvalid : ∀ p ∈ a1, (lookupOS catalog p).isSome) :
    runArgsLoop exec installed catalog (a1 ++ a2) =
      ((runArgsLoop exec installed catalog a1).1 ++
        (runArgsLoop exec installed catalog a2).1,
       (runArgsLoop exec installed catalog a2).2) := by
  induction a1 with
  | nil => simp [runArgsLoop]
  | cons os rest ih =>
      have hos := hvalid os (List.mem_cons_self os rest)
      obtain ⟨⟨channel, ts⟩, hlk⟩ := Option.isSome_iff_exists.mp hos
      rw [List.cons_append]
      simp only [runArgsLoop, hlk]
      rw [seqRun_success _ (by rw [runTriplesLoop_eq hexec]),
        seqRun_success _ (by rw [runTriplesLoop_eq hexec]),
        ih (fun p hp => hvalid p (List.mem_cons_of_mem os hp))]
      simp

/-! ## Shape of the commands each stage can emit (no assumption on `exec`) -/

lemma runCommand_trace (exec : String → Nat) (c : Cmd) :
    (runCommand exec c).1 = [c] := by
  rw [runCommand]; split <;> rfl

lemma mem_ensureAndCheck {exec : String → Nat} {installed : String → List String}
    {channel t : String} {c : Cmd}
    (h : c ∈ (ensureAndCheck exec installed channel t).1) :
    c = .cargoCheck channel t ∨
      (c = .rustupInstall channel t ∧ (installed channel).contains t = false) := by
  rcases mem_seqRun h with h1 | h1
  · by_cases hc : (installed channel).contains t = true
    · rw [if_pos hc] at h1
      simp at h1
    · rw [if_neg hc, runCommand_trace] at h1
      simp only [List.mem_singleton] at h1
      exact Or.inr ⟨h1, Bool.eq_false_iff.mpr hc⟩
  · rw [runCommand_trace] at h1
    simp only [List.mem_singleton] at h1
    exact Or.inl h1

lemma mem_runTriplesLoop {exec : String → Nat} {installed : String → List String}
    {channel : String} {ts : List String} {c : Cmd}
    (h : c ∈ (runTriplesLoop exec installed channel ts).1) :
    ∃ t ∈ ts, c = .cargoCheck channel t ∨
      (c = .rustupInstall channel t ∧ (installed channel).contains t = false) := by
  induction ts with
  | nil => simp [runTriplesLoop] at h
  | cons t ts ih =>
      rw [runTriplesLoop] at h
      rcases mem_seqRun h with h1 | h1
      · exact ⟨t, List.mem_cons_self t ts, mem_ensureAndCheck h1⟩
      · obtain ⟨u, hu, hc⟩ := ih h1
        exact ⟨u, List.mem_cons_of_mem t hu, hc⟩

lemma mem_runAllPlatforms {exec : String → Nat} {installed : String → List String}
    {catalog : List (String × String × List String)} {c : Cmd}
    (h : c ∈ (runAllPlatforms exec installed catalog).1) :
    ∃ e ∈ catalog, c ∈ (runTriplesLoop exec installed e.2.1 e.2.2).1 := by
  induction catalog with
  | nil => simp [runAllPlatforms] at h
  | cons e rest ih =>
      obtain ⟨os, channel, ts⟩ := e
      rw [runAllPlatforms] at h
      rcases mem_seqRun h with h1 | h1
      · exact ⟨(os, channel, ts), List.mem_cons_self _ rest, h1⟩
      · obtain ⟨e, he, hc⟩ := ih h1
        exact ⟨e, List.mem_cons_of_mem _ he, hc⟩

lemma mem_runArgsLoop {exec : String → Nat} {installed : String → List String}
    {catalog : List (String × String × List String)} {args : List String} {c : Cmd}
    (h : c ∈ (runArgsLoop exec installed catalog args).1) :
    ∃ os ∈ args, ∃ channel ts, lookupOS catalog os = some (channel, ts) ∧
      c ∈ (runTriplesLoop exec installed channel ts).1 := by
  induction args with
  | nil => simp [runArgsLoop] at h
  | cons os rest ih =>
      cases hlk : lookupOS catalog os with
      | none => simp only [runArgsLoop, hlk, List.not_mem_nil] at h
      | some v =>
          obtain ⟨channel, ts⟩ := v
          simp only [runArgsLoop, hlk] at h
          rcases mem_seqRun h with h1 | h1
          · exact ⟨os, List.mem_cons_self os rest, channel, ts, hlk, h1⟩
          · obtain ⟨p, hp, channel', ts', hlk', hc⟩ := ih h1
            exact ⟨p, List.mem_cons_of_mem os hp, channel', ts', hlk', hc⟩

lemma mem_noDefaultPass {exec : String → Nat} {ts : List String} {c : Cmd}
    (h : c ∈ (noDefaultPass exec ts).1) : ∃ t ∈ ts, c = .cargoCheckNoDefault t := by
  induction ts with
  | nil => simp [noDefaultPass] at h
  | cons t ts ih =>
      rw [noDefaultPass] at h
      rcases mem_seqRun h with h1 | h1
      · rw [runCommand_trace] at h1
        simp only [List.mem_singleton] at h1
        exact ⟨t, List.mem_cons_self t ts, h1⟩
      · obtain ⟨u, hu, hc⟩ := ih h1
        exact ⟨u, List.mem_cons_of_mem t hu, hc⟩

/-! ## Every issued command but possibly the last one succeeded -/

/-- The invariant behind `run_command`'s `sys.exit(1)`: in the issued trace,
every command except possibly the final one returned 0, and if the stage
ended successfully then every issued command returned 0. -/
def GoodTrace (exec : String → Nat) (p : Trace × Outcome) : Prop :=
  (∀ c ∈ p.1.dropLast, exec (Cmd.str c) = 0) ∧
    (p.2 = .success → ∀ c ∈ p.1, exec (Cmd.str c) = 0)

lemma goodTrace_nil (exec : String → Nat) (o : Outcome) :
    GoodTrace exec ([], o) := by
  constructor
  · intro c hc; simp at hc
  · intro _ c hc; simp at hc

lemma goodTrace_seqRun {exec : String → Nat} {a : Trace × Outcome}
    {k : Unit → Trace × Outcome} (ha : GoodTrace exec a)
    (hk : GoodTrace exec (k ())) : GoodTrace exec (seqRun a k) := by
  by_cases hs : a.2 = .success
  · rw [seqRun_success _ hs]
    constructor
    · intro c hc
      rcases List.eq_nil_or_concat (k ()).1 with h2 | ⟨l2, b, h2⟩
      · rw [h2, List.append_nil] at hc
        exact ha.2 hs c (List.dropLast_subset _ hc)
      · rw [List.dropLast_append_of_ne_nil _ (by rw [h2]; simp)] at hc
        rcases List.mem_append.mp hc with h3 | h3
        · exact ha.2 hs c h3
        · exact hk.1 c h3
    · intro ho c hc
      rcases List.mem_append.mp hc with h3 | h3
      · exact ha.2 hs c h3
      · exact hk.2 ho c h3
  · rw [seqRun_fail _ hs]
    exact ha

lemma goodTrace_runCommand (exec : String → Nat) (c : Cmd) :
    GoodTrace exec (runCommand exec c) := by
  rw [runCommand]
  by_cases h : exec (Cmd.str c) = 0
  · rw [if_pos h]
    constructor
    · intro c' hc'; simp at hc'
    · intro _ c' hc'
      simp only [List.mem_singleton] at hc'
      rw [hc']; exact h
  · rw [if_neg h]
    constructor
    · intro c' hc'; simp at hc'
    · intro ho; simp at ho

lemma goodTrace_ensureAndCheck (exec : String → Nat)
    (installed : String → List String) (channel t : String) :
    GoodTrace exec (ensureAndCheck exec installed channel t) := by
  refine goodTrace_seqRun ?_ (goodTrace_runCommand exec _)
  by_cases hc : (installed channel).contains t = true
  · rw [if_pos hc]; exact goodTrace_nil exec _
  · rw [if_neg hc]; exact goodTrace_runCommand exec _

lemma goodTrace_runTriplesLoop (exec : String → Nat)
    (installed : String → List String) (channel : String) (ts : List String) :
    GoodTrace exec (runTriplesLoop exec installed channel ts) := by
  induction ts with
  | nil => exact goodTrace_nil exec _
  | cons t ts ih =>
      exact goodTrace_seqRun (goodTrace_ensureAndCheck exec installed channel t) ih

lemma goodTrace_runAllPlatforms (exec : String → Nat)
    (installed : String → List String)
    (catalog : List (String × String × List String)) :
    GoodTrace exec (runAllPlatforms exec installed catalog) := by
  induction catalog with
  | nil => exact goodTrace_nil exec _
  | cons e rest ih =>
      obtain ⟨os, channel, ts⟩ := e
      exact goodTrace_seqRun (goodTrace_runTriplesLoop exec installed channel ts) ih

lemma goodTrace_noDefaultPass (exec : String → Nat) (ts : List String) :
    GoodTrace exec (noDefaultPass exec ts) := by
  induction ts with
  | nil => exact goodTrace_nil exec _
  | cons t ts ih => exact goodTrace_seqRun (goodTrace_runCommand exec _) ih

lemma goodTrace_runArgsLoop (exec : String → Nat)
    (installed : String → List String)
    (catalog : List (String × String × List String)) (args : List String) :
    GoodTrace exec (runArgsLoop exec installed catalog args) := by
  induction args with
  | nil => exact goodTrace_nil exec _
  | cons os rest ih =>
      cases hlk : lookupOS catalog os with
      | none => simp only [runArgsLoop, hlk]; exact goodTrace_nil exec _
      | some v =>
          obtain ⟨channel, ts⟩ := v
          simp only [runArgsLoop, hlk]
          exact goodTrace_seqRun (goodTrace_runTriplesLoop exec installed channel ts) ih

lemma goodTrace_mainRun (sysPlatform : String) (exec : String → Nat)
    (installed : String → List String) (argv : List String) :
    GoodTrace exec (mainRun sysPlatform exec installed argv) := by
  cases argv with
  | nil =>
      exact goodTrace_seqRun (goodTrace_runAllPlatforms exec installed _)
        (goodTrace_noDefaultPass exec _)
  | cons a rest =>
      refine goodTrace_seqRun (goodTrace_runArgsLoop exec installed _ _) ?_
      by_cases h : strHasSub a "linux" = true
      · rw [if_pos h]; exact goodTrace_noDefaultPass exec _
      · rw [if_neg h]; exact goodTrace_nil exec _

/-! ## Filtering the trace by command kind -/

lemma runTriplesLoop_filter_check {exec : String → Nat} (hexec : ∀ s, exec s = 0)
    (installed : String → List String) (channel : String) (ts : List String) :
    (runTriplesLoop exec installed channel ts).1.filter Cmd.isCheck =
      ts.map (Cmd.cargoCheck channel) := by
  induction ts with
  | nil => rfl
  | cons t ts ih =>
      rw [runTriplesLoop, ensureAndCheck_eq hexec, seqRun_success _ rfl]
      by_cases hm : t ∈ installed channel <;>
        simp [hm, List.filter_append, ih, Cmd.isCheck, Cmd.isInstall]

lemma runTriplesLoop_filter_install {exec : String → Nat} (hexec : ∀ s, exec s = 0)
    (installed : String → List String) (channel : String) (ts : List String) :
    (runTriplesLoop exec installed channel ts).1.filter Cmd.isInstall =
      (ts.filter (fun t => !(installed channel).contains t)).map
        (Cmd.rustupInstall channel) := by
  induction ts with
  | nil => rfl
  | cons t ts ih =>
      rw [runTriplesLoop, ensureAndCheck_eq hexec, seqRun_success _ rfl]
      by_cases hm : t ∈ installed channel <;>
        simp [hm, List.filter_append, ih, Cmd.isCheck, Cmd.isInstall]

lemma runAllPlatforms_filter_check {exec : String → Nat} (hexec : ∀ s, exec s = 0)
    (installed : String → List String)
    (catalog : List (String × String × List String)) :
    (runAllPlatforms exec installed catalog).1.filter Cmd.isCheck =
      (catalog.map (fun e => e.2.2.map (Cmd.cargoCheck e.2.1))).flatten := by
  induction catalog with
  | nil => rfl
  | cons e rest ih =>
      obtain ⟨os, channel, ts⟩ := e
      rw [runAllPlatforms, seqRun_success _ (by rw [runTriplesLoop_eq hexec])]
      simp only [List.filter_append, ih, List.map_cons, List.flatten_cons]
      rw [runTriplesLoop_filter_check hexec]

lemma runArgsLoop_filter_noDefault (exec : String → Nat)
    (installed : String → List String)
    (catalog : List (String × String × List String)) (args : List String) :
    (runArgsLoop exec installed catalog args).1.filter Cmd.isNoDefault = [] := by
  rw [List.filter_eq_nil_iff]
  intro c hc
  obtain ⟨os, _, channel, ts, _, hmem⟩ := mem_runArgsLoop hc
  obtain ⟨t, _, h | h⟩ := mem_runTriplesLoop hmem <;> simp [h, Cmd.isNoDefault]

lemma runAllPlatforms_filter_noDefault (exec : String → Nat)
    (installed : String → List String)
    (catalog : List (String × String × List String)) :
    (runAllPlatforms exec installed catalog).1.filter Cmd.isNoDefault = [] := by
  rw [List.filter_eq_nil_iff]
  intro c hc
  obtain ⟨e, _, hmem⟩ := mem_runAllPlatforms hc
  obtain ⟨t, _, h | h⟩ := mem_runTriplesLoop hmem <;> simp [h, Cmd.isNoDefault]

lemma noDefaultPass_filter_install (exec : String → Nat) (ts : List String) :
    (noDefaultPass exec ts).1.filter Cmd.isInstall = [] := by
  rw [List.filter_eq_nil_iff]
  intro c hc
  obtain ⟨t, _, h⟩ := mem_noDefaultPass hc
  simp [h, Cmd.isInstall]

lemma noDefaultPass_filter_check (exec : String → Nat) (ts : List String) :
    (noDefaultPass exec ts).1.filter Cmd.isCheck = [] := by
  rw [List.filter_eq_nil_iff]
  intro c hc
  obtain ⟨t, _, h⟩ := mem_noDefaultPass hc
  simp [h, Cmd.isCheck]

/-! ## The `"linux"` catalog entry and the shape of `main` -/

lemma linuxTriples_OSS (s : String) :
    linuxTriples (OSS s) = ["x86_64-unknown-linux-gnu", "x86_64-unknown-linux-musl"] := by
  by_cases h : s = "darwin"
  · rw [OSS, if_pos h]; rfl
  · rw [OSS, if_neg h]; rfl

lemma mainRun_full_eq {exec : String → Nat} (hexec : ∀ s, exec s = 0)
    (sysPlatform : String) (installed : String → List String) :
    mainRun sysPlatform exec installed [] =
      ((runAllPlatforms exec installed (OSS sysPlatform)).1 ++
        (linuxTriples (OSS sysPlatform)).map Cmd.cargoCheckNoDefault, .success) := by
  rw [mainRun, seqRun_success _ (by rw [runAllPlatforms_eq hexec]),
    noDefaultPass_eq hexec]

lemma mainRun_args_eq {exec : String → Nat} (hexec : ∀ s, exec s = 0)
    (sysPlatform : String) (installed : String → List String)
    (a : String) (rest : List String)
    (hvalid : ∀ p ∈ a :: rest, (lookupOS (OSS sysPlatform) p).isSome) :
    mainRun sysPlatform exec installed (a :: rest) =
      ((runArgsLoop exec installed (OSS sysPlatform) (a :: rest)).1 ++
        (if strHasSub a "linux" then
          (linuxTriples (OSS sysPlatform)).map Cmd.cargoCheckNoDefault
         else []), .success) := by
  rw [mainRun,
    seqRun_success _ (runArgsLoop_success hexec installed _ (a :: rest) hvalid)]
  by_cases h : strHasSub a "linux" = true
  · rw [if_pos h, if_pos h, noDefaultPass_eq hexec]
  · rw [if_neg h, if_neg h]

lemma map_noDefault_filter_self (ts : List String) :
    (ts.map Cmd.cargoCheckNoDefault).filter Cmd.isNoDefault =
      ts.map Cmd.cargoCheckNoDefault := by
  induction ts with
  | nil => rfl
  | cons t ts ih => simp [Cmd.isNoDefault, ih]

lemma map_noDefault_filter_not (ts : List String) :
    (ts.map Cmd.cargoCheckNoDefault).filter (fun c => !c.isNoDefault) = [] := by
  induction ts with
  | nil => rfl
  | cons t ts ih => simp [Cmd.isNoDefault, ih]

lemma map_noDefault_filter_check (ts : List String) :
    (ts.map Cmd.cargoCheckNoDefault).filter Cmd.isCheck = [] := by
  induction ts with
  | nil => rfl
  | cons t ts ih => simp [Cmd.isNoDefault, Cmd.isCheck, ih]

lemma map_noDefault_filter_install (ts : List String) :
    (ts.map Cmd.cargoCheckNoDefault).filter Cmd.isInstall = [] := by
  induction ts with
  | nil => rfl
  | cons t ts ih => simp [Cmd.isNoDefault, Cmd.isInstall, ih]

lemma runAllPlatforms_filter_not_noDefault (exec : String → Nat)
    (installed : String → List String)
    (catalog : List (String × String × List String)) :
    (runAllPlatforms exec installed catalog).1.filter (fun c => !c.isNoDefault) =
      (runAllPlatforms exec installed catalog).1 := by
  rw [List.filter_eq_self]
  intro c hc
  obtain ⟨e, _, hmem⟩ := mem_runAllPlatforms hc
  obtain ⟨t, _, h | h⟩ := mem_runTriplesLoop hmem
  · simp [h, Cmd.isNoDefault]
  · simp [h.1, Cmd.isNoDefault]

lemma runArgsLoop_filter_not_noDefault (exec : String → Nat)
    (installed : String → List String)
    (catalog : List (String × String × List String)) (args : List String) :
    (runArgsLoop exec installed catalog args).1.filter (fun c => !c.isNoDefault) =
      (runArgsLoop exec installed catalog args).1 := by
  rw [List.filter_eq_self]
  intro c hc
  obtain ⟨os, _, channel, ts, _, hmem⟩ := mem_runArgsLoop hc
  obtain ⟨t, _, h | h⟩ := mem_runTriplesLoop hmem
  · simp [h, Cmd.isNoDefault]
  · simp [h.1, Cmd.isNoDefault]

/-! ## The claims -/

/-- C4: a full (no-argument) run in which every external command succeeds
issues exactly one `cargo check` invocation per catalog triple, visiting
platforms in catalog declaration order and triples within each platform in
their declared list order. -/
theorem full_run_one_check_per_triple_in_order (sysPlatform : String)
    (exec : String → Nat) (installed : String → List String)
    (hexec : ∀ s, exec s = 0) :
    (mainRun sysPlatform exec installed []).1.filter Cmd.isCheck =
      ((OSS sysPlatform).map (fun e => e.2.2.map (Cmd.cargoCheck e.2.1))).flatten := by
  rw [mainRun_full_eq hexec, List.filter_append,
    runAllPlatforms_filter_check hexec, map_noDefault_filter_check,
    List.append_nil]

/-- Witness for C4: a concrete fully-successful full run on a non-darwin
host produces one check per triple of the seven-platform catalog, in order. -/
theorem full_run_one_check_per_triple_in_order_witness :
    (mainRun "linux" (fun _ => 0) (fun _ => []) []).1.filter Cmd.isCheck =
      ((OSS "linux").map (fun e => e.2.2.map (Cmd.cargoCheck e.2.1))).flatten :=
  full_run_one_check_per_triple_in_order "linux" (fun _ => 0) (fun _ => [])
    (fun _ => rfl)

/-- C5: every `rustup target install` invocation, in any run, is for a triple
that the pre-run snapshot does not report as installed for that channel;
hence a run on a fully-installed system performs no installs. -/
theorem install_only_when_missing_from_snapshot (sysPlatform : String)
    (exec : String → Nat) (installed : String → List String)
    (argv : List String) (channel t : String)
    (h : Cmd.rustupInstall channel t ∈ (mainRun sysPlatform exec installed argv).1) :
    (installed channel).contains t = false := by
  have shape : ∀ {channel' : String} {ts : List String},
      Cmd.rustupInstall channel t ∈
        (runTriplesLoop exec installed channel' ts).1 →
      (installed channel).contains t = false := by
    intro channel' ts hmem
    obtain ⟨u, _, hc | hc⟩ := mem_runTriplesLoop hmem
    · exact absurd hc (by simp)
    · obtain ⟨he, hinst⟩ := hc
      cases he
      exact hinst
  cases argv with
  | nil =>
      rcases mem_seqRun h with h1 | h1
      · obtain ⟨e, _, hmem⟩ := mem_runAllPlatforms h1
        exact shape hmem
      · obtain ⟨u, _, hc⟩ := mem_noDefaultPass h1
        exact absurd hc (by simp)
  | cons a rest =>
      rcases mem_seqRun h with h1 | h1
      · obtain ⟨os, _, channel', ts, _, hmem⟩ := mem_runArgsLoop h1
        exact shape hmem
      · by_cases hsub : strHasSub a "linux" = true
        · rw [if_pos hsub] at h1
          obtain ⟨u, _, hc⟩ := mem_noDefaultPass h1
          exact absurd hc (by simp)
        · rw [if_neg hsub] at h1
          simp at h1

/-- Witness for C5: in a concrete run that does install a missing triple, the
installed triple was indeed absent from the pre-run snapshot. -/
theorem install_only_when_missing_from_snapshot_witness :
    ((fun _ => ([] : List String)) "stable").contains "x86_64-unknown-freebsd"
      = false :=
  install_only_when_missing_from_snapshot "linux" (fun _ => 0) (fun _ => [])
    ["freebsd"] "stable" "x86_64-unknown-freebsd" (by decide)

/-- C6: once an external install or check command exits non-zero, no further
external command is issued — every command in the issued trace except
possibly the final one returned 0. -/
theorem no_command_issued_after_failure (sysPlatform : String)
    (exec : String → Nat) (installed : String → List String)
    (argv : List String) :
    ∀ c ∈ (mainRun sysPlatform exec installed argv).1.dropLast,
      exec (Cmd.str c) = 0 :=
  (goodTrace_mainRun sysPlatform exec installed argv).1

/-- Witness for C6: in a concrete run whose second check fails, the command
before the failing one succeeded. -/
theorem no_command_issued_after_failure_witness :
    (fun s => if s = "cargo +stable check --target=x86_64-unknown-netbsd"
        then 101 else 0)
      (Cmd.str (Cmd.cargoCheck "stable" "x86_64-unknown-freebsd")) = 0 :=
  no_command_issued_after_failure "linux"
    (fun s => if s = "cargo +stable check --target=x86_64-unknown-netbsd"
        then 101 else 0)
    (fun _ => ["x86_64-unknown-freebsd", "x86_64-unknown-netbsd"])
    ["freebsd", "netbsd", "windows"]
    (Cmd.cargoCheck "stable" "x86_64-unknown-freebsd") (by decide)

/-- C9: the catalog is a pure function of the host OS identifier; exactly one
extra platform entry `("ios", "stable", two triples)` is appended when and
only when the host is `"darwin"`, and every other host gets the static
seven-entry table unchanged. -/
theorem catalog_static_except_darwin_ios (s : String) :
    OSS s = (if s = "darwin" then
        baseOSS ++ [("ios", "stable", ["aarch64-apple-ios", "x86_64-apple-ios"])]
      else baseOSS)
    ∧ baseOSS.length = 7 ∧ (OSS "darwin").length = 8 := by
  refine ⟨?_, rfl, rfl⟩
  by_cases h : s = "darwin"
  · rw [OSS, if_pos h, if_pos h]; rfl
  · rw [OSS, if_neg h, if_neg h]

/-- C10: a triple is placed in the installed set of a channel iff some line
of that channel's listing output splits into exactly two whitespace-separated
fields whose second field is exactly `"(installed)"`. -/
theorem installed_iff_line_two_fields_installed (stdout : String → List String)
    (channel t : String) :
    t ∈ getInstalledTargets stdout channel ↔
      ∃ line ∈ stdout channel, pySplitWs line = [t, "(installed)"] := by
  simp only [getInstalledTargets, installedFromLines, List.mem_filterMap]
  constructor
  · rintro ⟨line, hl, hf⟩
    refine ⟨line, hl, ?_⟩
    cases hsp : pySplitWs line with
    | nil => rw [hsp] at hf; simp at hf
    | cons a l2 =>
        cases l2 with
        | nil => rw [hsp] at hf; simp at hf
        | cons b l3 =>
            cases l3 with
            | nil =>
                rw [hsp] at hf
                have hf' : (if b = "(installed)" then some a else none)
                    = some t := hf
                by_cases hb : b = "(installed)"
                · rw [if_pos hb] at hf'
                  rw [hb, Option.some.inj hf']
                · rw [if_neg hb] at hf'
                  exact absurd hf' (by simp)
            | cons c l4 => rw [hsp] at hf; simp at hf
  · rintro ⟨line, hl, hsp⟩
    exact ⟨line, hl, by rw [hsp]; simp⟩

/-- C1 counterexample: with every external command succeeding, the argument
list `["freebsd", "bogus"]` contains the unknown name `"bogus"`, yet the run
issues an install and a check for freebsd before aborting — the claimed
"zero external install or check invocations" fails when the unknown name is
not first. -/
theorem unknownOS_after_valid_platform_not_side_effect_free :
    mainRun "linux" (fun _ => 0) (fun _ => []) ["freebsd", "bogus"] =
      ([Cmd.rustupInstall "stable" "x86_64-unknown-freebsd",
        Cmd.cargoCheck "stable" "x86_64-unknown-freebsd"],
       .badOS "bogus"
         "[\x27android\x27, \x27freebsd\x27, \x27linux\x27, \x27macos\x27, \x27redox\x27, \x27netbsd\x27, \x27windows\x27]")
    ∧ (mainRun "linux" (fun _ => 0) (fun _ => []) ["freebsd", "bogus"]).1 ≠ [] := by
  refine ⟨by decide, by decide⟩

/-- C1 (amended): an unknown platform name makes the run exit non-zero with
the offending identifier and the full valid list, and no command is issued
for the unknown name or anything after it; the external install/check count
is zero exactly when the unknown name is the first argument — commands for
valid platforms preceding it do run. -/
theorem unknownOS_aborts_with_offending_and_available
    (sysPlatform : String) (exec : String → Nat)
    (installed : String → List String) (pre rest : List String) (os : String)
    (hexec : ∀ s, exec s = 0)
    (hpre : ∀ p ∈ pre, (lookupOS (OSS sysPlatform) p).isSome)
    (hos : lookupOS (OSS sysPlatform) os = none) :
    mainRun sysPlatform exec installed (pre ++ os :: rest) =
      ((runArgsLoop exec installed (OSS sysPlatform) pre).1,
       .badOS os (pyStrList ((OSS sysPlatform).map Prod.fst)))
    ∧ (pre = [] →
        (mainRun sysPlatform exec installed (pre ++ os :: rest)).1 = []) := by
  have hloop : runArgsLoop exec installed (OSS sysPlatform) (pre ++ os :: rest) =
      ((runArgsLoop exec installed (OSS sysPlatform) pre).1,
       .badOS os (pyStrList ((OSS sysPlatform).map Prod.fst))) := by
    rw [runArgsLoop_append hexec installed (OSS sysPlatform) pre (os :: rest) hpre]
    simp only [runArgsLoop, hos, List.append_nil]
  have hmain : mainRun sysPlatform exec installed (pre ++ os :: rest) =
      ((runArgsLoop exec installed (OSS sysPlatform) pre).1,
       .badOS os (pyStrList ((OSS sysPlatform).map Prod.fst))) := by
    cases pre with
    | nil =>
        simp only [List.nil_append] at hloop ⊢
        simp only [mainRun]
        rw [seqRun_fail _ (by rw [hloop]; simp)]
        exact hloop
    | cons p pre' =>
        simp only [List.cons_append] at hloop ⊢
        simp only [mainRun]
        rw [seqRun_fail _ (by rw [hloop]; simp)]
        exact hloop
  refine ⟨hmain, fun hpre0 => ?_⟩
  rw [hmain, hpre0]
  rfl

/-- Witness for C1 (amended): freebsd is valid and runs; the unknown name
`"bogus"` then aborts with the message data. -/
theorem unknownOS_aborts_with_offending_and_available_witness :
    mainRun "linux" (fun _ => 0) (fun _ => []) (["freebsd"] ++ "bogus" :: []) =
      ((runArgsLoop (fun _ => 0) (fun _ => []) (OSS "linux") ["freebsd"]).1,
       .badOS "bogus" (pyStrList ((OSS "linux").map Prod.fst))) :=
  (unknownOS_aborts_with_offending_and_available "linux" (fun _ => 0)
    (fun _ => []) ["freebsd"] [] "bogus" (fun _ => rfl) (by decide) (by decide)).1

/-- C2: in an explicit run in which all names are valid and every external
command succeeds, the no-default-features pass is executed iff the first
user-supplied argument contains `"linux"` as a substring. -/
theorem noDefault_iff_first_arg_has_linux (sysPlatform : String)
    (exec : String → Nat) (installed : String → List String)
    (a : String) (rest : List String)
    (hexec : ∀ s, exec s = 0)
    (hvalid : ∀ p ∈ a :: rest, (lookupOS (OSS sysPlatform) p).isSome) :
    (∃ t, Cmd.cargoCheckNoDefault t ∈
        (mainRun sysPlatform exec installed (a :: rest)).1) ↔
      strHasSub a "linux" = true := by
  rw [mainRun_args_eq hexec sysPlatform installed a rest hvalid]
  constructor
  · rintro ⟨t, ht⟩
    rcases List.mem_append.mp ht with h1 | h1
    · obtain ⟨os, _, channel, ts, _, hmem⟩ := mem_runArgsLoop h1
      obtain ⟨u, _, hc | hc⟩ := mem_runTriplesLoop hmem
      · exact absurd hc (by simp)
      · exact absurd hc.1 (by simp)
    · by_cases hsub : strHasSub a "linux" = true
      · exact hsub
      · rw [if_neg hsub] at h1
        simp at h1
  · intro hsub
    refine ⟨"x86_64-unknown-linux-gnu", List.mem_append.mpr (Or.inr ?_)⟩
    rw [if_pos hsub, linuxTriples_OSS]
    simp

/-- Witness for C2: selecting exactly `["linux"]` triggers the pass, matching
the substring test on the first argument. -/
theorem noDefault_iff_first_arg_has_linux_witness :
    (∃ t, Cmd.cargoCheckNoDefault t ∈
        (mainRun "linux" (fun _ => 0) (fun _ => []) ["linux"]).1) ↔
      strHasSub "linux" "linux" = true :=
  noDefault_iff_first_arg_has_linux "linux" (fun _ => 0) (fun _ => [])
    "linux" [] (fun _ => rfl) (by decide)

/-- C3 counterexample: the explicit run `["macos", "linux"]` processes the
linux platform (both its triples are checked) and completes successfully, yet
no no-default-features check is issued at all, because the gate looks only at
the first argument. -/
theorem explicit_linux_selection_without_noDefault :
    mainRun "linux" (fun _ => 0)
        (fun _ => ["x86_64-apple-darwin", "x86_64-unknown-linux-gnu",
          "x86_64-unknown-linux-musl"]) ["macos", "linux"] =
      ([Cmd.cargoCheck "stable" "x86_64-apple-darwin",
        Cmd.cargoCheck "stable" "x86_64-unknown-linux-gnu",
        Cmd.cargoCheck "stable" "x86_64-unknown-linux-musl"], .success)
    ∧ (mainRun "linux" (fun _ => 0)
        (fun _ => ["x86_64-apple-darwin", "x86_64-unknown-linux-gnu",
          "x86_64-unknown-linux-musl"]) ["macos", "linux"]).1.filter
        Cmd.isNoDefault = [] := by
  refine ⟨by decide, by decide⟩

/-- C3 (amended): when every external command succeeds and all names are
valid, the no-default-features checks are exactly one per linux triple,
placed after all normal checks, and only in a full run or an explicit run
whose first argument contains `"linux"` — an explicit run that selects linux
later in the list gets none. -/
theorem noDefault_exactly_linux_triples_after_all_checks
    (sysPlatform : String) (exec : String → Nat)
    (installed : String → List String) (argv : List String)
    (hexec : ∀ s, exec s = 0)
    (hvalid : ∀ p ∈ argv, (lookupOS (OSS sysPlatform) p).isSome) :
    (mainRun sysPlatform exec installed argv).1 =
      (mainRun sysPlatform exec installed argv).1.filter (fun c => !c.isNoDefault)
        ++ (if argv = [] ∨ strHasSub (argv.headD "") "linux" = true then
              [Cmd.cargoCheckNoDefault "x86_64-unknown-linux-gnu",
               Cmd.cargoCheckNoDefault "x86_64-unknown-linux-musl"]
            else []) := by
  cases argv with
  | nil =>
      simp only [mainRun_full_eq hexec, linuxTriples_OSS]
      rw [List.filter_append, runAllPlatforms_filter_not_noDefault,
        map_noDefault_filter_not, List.append_nil,
        if_pos (Or.inl trivial)]
      rfl
  | cons a rest =>
      simp only [mainRun_args_eq hexec sysPlatform installed a rest hvalid,
        linuxTriples_OSS]
      by_cases hsub : strHasSub a "linux" = true
      · rw [if_pos hsub, List.filter_append, runArgsLoop_filter_not_noDefault,
          map_noDefault_filter_not, List.append_nil,
          if_pos (Or.inr (by simpa using hsub))]
        rfl
      · rw [if_neg hsub, List.append_nil,
          runArgsLoop_filter_not_noDefault,
          if_neg (by simp [hsub]), List.append_nil]

/-- Witness for C3 (amended): the explicit run `["linux"]` with nothing
installed ends with exactly the two linux no-default-features checks. -/
theorem noDefault_exactly_linux_triples_after_all_checks_witness :
    (mainRun "linux" (fun _ => 0) (fun _ => []) ["linux"]).1 =
      (mainRun "linux" (fun _ => 0) (fun _ => []) ["linux"]).1.filter
          (fun c => !c.isNoDefault)
        ++ (if ["linux"] = ([] : List String)
              ∨ strHasSub ((["linux"] : List String).headD "") "linux" = true then
              [Cmd.cargoCheckNoDefault "x86_64-unknown-linux-gnu",
               Cmd.cargoCheckNoDefault "x86_64-unknown-linux-musl"]
            else []) :=
  noDefault_exactly_linux_triples_after_all_checks "linux" (fun _ => 0)
    (fun _ => []) ["linux"] (fun _ => rfl) (by decide)

/-- C7 counterexample: when the first failing external command exits with
code 101, the process still exits with code 1 (`sys.exit(1)`), not with the
propagated 101. -/
theorem exit_code_not_propagated :
    (mainRun "linux" (fun _ => 101) (fun _ => ["x86_64-unknown-freebsd"])
        ["freebsd"] =
      ([Cmd.cargoCheck "stable" "x86_64-unknown-freebsd"], .cmdFailed))
    ∧ Outcome.cmdFailed.exitCode = 1 ∧ Outcome.cmdFailed.exitCode ≠ 101 := by
  refine ⟨by decide, rfl, by decide⟩

/-- C7 (amended): the exit code is 0 exactly on full success and 1 otherwise
— both for a failing external command and for an unknown platform name; the
failing command's own exit code is never propagated. -/
theorem exit_code_one_on_any_failure (sysPlatform : String)
    (exec : String → Nat) (installed : String → List String)
    (argv : List String)
    (hvalid : ∀ p ∈ argv, (lookupOS (OSS sysPlatform) p).isSome) :
    ((mainRun sysPlatform exec installed argv).2.exitCode =
      if (mainRun sysPlatform exec installed argv).2 = .success then 0 else 1)
    ∧ ((∀ s, exec s = 0) →
        (mainRun sysPlatform exec installed argv).2 = .success) := by
  constructor
  · cases h : (mainRun sysPlatform exec installed argv).2 <;>
      simp [h, Outcome.exitCode]
  · intro hexec
    cases argv with
    | nil => rw [mainRun_full_eq hexec]
    | cons a rest => rw [mainRun_args_eq hexec sysPlatform installed a rest hvalid]

/-- Witness for C7 (amended): a concrete all-successful run exits 0. -/
theorem exit_code_one_on_any_failure_witness :
    ((mainRun "linux" (fun _ => 0) (fun _ => []) ["freebsd"]).2.exitCode =
      if (mainRun "linux" (fun _ => 0) (fun _ => []) ["freebsd"]).2 = .success
        then 0 else 1)
    ∧ ((∀ s : String, (fun _ : String => (0 : Nat)) s = 0) →
        (mainRun "linux" (fun _ => 0) (fun _ => []) ["freebsd"]).2 = .success) :=
  exit_code_one_on_any_failure "linux" (fun _ => 0) (fun _ => []) ["freebsd"]
    (by decide)

/-- C8: install decisions come only from the pre-run snapshot — running the
same argument list twice in one invocation doubles the install commands: a
triple installed during the first pass is installed again in the second,
because the snapshot is never updated. -/
theorem install_decisions_from_pre_run_snapshot (sysPlatform : String)
    (exec : String → Nat) (installed : String → List String)
    (a : String) (rest : List String)
    (hexec : ∀ s, exec s = 0)
    (hvalid : ∀ p ∈ a :: rest, (lookupOS (OSS sysPlatform) p).isSome) :
    (mainRun sysPlatform exec installed
        ((a :: rest) ++ (a :: rest))).1.filter Cmd.isInstall =
      (mainRun sysPlatform exec installed (a :: rest)).1.filter Cmd.isInstall
        ++ (mainRun sysPlatform exec installed (a :: rest)).1.filter
            Cmd.isInstall := by
  have hvalid2 : ∀ p ∈ a :: (rest ++ a :: rest),
      (lookupOS (OSS sysPlatform) p).isSome := by
    intro p hp
    rcases List.mem_cons.mp hp with h | h
    · exact h ▸ hvalid a (List.mem_cons_self a rest)
    · rcases List.mem_append.mp h with h1 | h1
      · exact hvalid p (List.mem_cons_of_mem a h1)
      · exact hvalid p h1
  have happ := runArgsLoop_append hexec installed (OSS sysPlatform)
    (a :: rest) (a :: rest) hvalid
  have hfilter : ∀ b : Bool,
      ((if b = true then
          (linuxTriples (OSS sysPlatform)).map Cmd.cargoCheckNoDefault
        else []) : Trace).filter Cmd.isInstall = [] := by
    intro b
    cases b
    · rw [if_neg (by simp)]; rfl
    · rw [if_pos rfl]; exact map_noDefault_filter_install _
  simp only [List.cons_append] at happ
  simp only [List.cons_append,
    mainRun_args_eq hexec sysPlatform installed a (rest ++ a :: rest) hvalid2,
    mainRun_args_eq hexec sysPlatform installed a rest hvalid,
    List.filter_append, happ, hfilter, List.append_nil]

/-- Witness for C8: with an empty snapshot, running `["freebsd", "freebsd"]`
installs the freebsd triple twice — once per occurrence. -/
theorem install_decisions_from_pre_run_snapshot_witness :
    (mainRun "linux" (fun _ => 0) (fun _ => [])
        ((["freebsd"] : List String) ++ ["freebsd"])).1.filter Cmd.isInstall =
      (mainRun "linux" (fun _ => 0) (fun _ => []) ["freebsd"]).1.filter
          Cmd.isInstall
        ++ (mainRun "linux" (fun _ => 0) (fun _ => []) ["freebsd"]).1.filter
            Cmd.isInstall :=
  install_decisions_from_pre_run_snapshot "linux" (fun _ => 0) (fun _ => [])
    "freebsd" [] (fun _ => rfl) (by decide)

end CheckPy
